import Mathlib

/-
Shallow embedding of the Lunaix VFS core (src/lunaix-os/kernel/fs/vfs.c).

The mutable kernel state (dnode cache, hash buckets, inode reference
counters) is threaded explicitly through each embedded function.  Driver
callbacks (the per-inode `ops` table), the hash function from the missing
klibc header, and the few constants that live in headers not present in
the tree are abstracted into a `WalkEnv` record of oracle functions; every
embedded function takes the environment and the state and returns the
errno together with the new state and, where a claim needs it, the list of
driver invocations it performed.  Machine integers are `Nat`/`Int` with
explicit reduction modulo 2^32 where the C code relies on 32-bit wrap
(the dcache hash mix, lseek position casts).
-/

set_option autoImplicit false

namespace LunaixVFS

/-- 2^32, the modulus of the kernel's 32-bit unsigned arithmetic. -/
def U32 : Nat := 2 ^ 32

/-
Errno constants.  vfs.c only names these; their numeric values live in a
header that is not part of the tree, so the usual POSIX-like values are
used.  Every theorem below depends only on the constants being pairwise
distinct.  EASSERT and ENOROOT are sentinels of this model: they mark
control paths on which the C code would stop the kernel (a failed
`assert`, a dereference of a null pointer, or the `panick` call for a
missing root mount); no errno of the kernel collides with them.
-/
def ENOENT : Int := 2
def EBADF : Int := 9
def ENOMEM : Int := 12
def EBUSY : Int := 16
def EEXIST : Int := 17
def EXDEV : Int := 18
def ENOTDIR : Int := 20
def EISDIR : Int := 21
def EINVAL : Int := 22
def EMFILE : Int := 24
def EROFS : Int := 30
def ERANGE : Int := 34
def ENAMETOOLONG : Int := 36
def ENOTEMPTY : Int := 39
def ELOOP : Int := 40
def ENOTSUP : Int := 95
def EASSERT : Int := 1000
def ENOROOT : Int := 1001

/-
Inode type bits (`inode->itype`).  The header defining them is not in the
tree; the claims depend only on the bits being distinct.
-/
def VFS_IFFILE : Nat := 1
def VFS_IFDIR : Nat := 2
def VFS_IFSEQDEV : Nat := 4
def VFS_IFSYMLINK : Nat := 8

/-- Filesystem type bit for a read-only filesystem (`fs->types`). -/
def FSTYPE_ROFS : Nat := 1

/- Walk option bits, a bitset per the spec; concrete values immaterial. -/
def VFS_WALK_PARENT : Nat := 1
def VFS_WALK_MKPARENT : Nat := 2
def VFS_WALK_FSRELATIVE : Nat := 4
def VFS_WALK_NOFOLLOW : Nat := 8

/-- Maximum name length `VFS_NAME_MAXLEN` (header value; a name may hold
at most `VFS_NAME_MAXLEN - 1` bytes plus the terminator). -/
def VFS_NAME_MAXLEN : Nat := 128

/-- Size of the dnode hash table; a fixed power of two per the spec. -/
def VFS_HASHTABLE_SIZE : Nat := 1024

/-- Shift used by `__dcache_hash` to fold high hash bits into the low ones. -/
def VFS_HASHBITS : Nat := 10

/-- Mask selecting a bucket index, `VFS_HASHTABLE_SIZE - 1`. -/
def VFS_HASH_MASK : Nat := VFS_HASHTABLE_SIZE - 1

/-- The path component separator. -/
def PATH_DELIM : Char := '/'

/-- A hashed string, mirroring `struct hstr`: the byte string, its length
and the (pre)computed 32-bit hash. -/
structure HStr where
  value : List Char
  len : Nat
  hash : Nat
deriving DecidableEq

/-- Build an `HStr` from a byte string with its full hash, as
`hstr_rehash(..., HSTR_FULL_HASH)` does. -/
def hstrOf (hashFn : List Char → Nat) (s : List Char) : HStr :=
  ⟨s, s.length, hashFn s⟩

/-- Modelled from the spec: `HSTR_EQ` from the missing klibc header.  The
spec states that lookup matches on full 32-bit hash equality only, never
on the bytes. -/
def HSTR_EQ (a b : HStr) : Bool := a.hash == b.hash

/-- The global `vfs_dot` ("."), rehashed at init. -/
def vfs_dot (hashFn : List Char → Nat) : HStr := hstrOf hashFn ['.']

/-- The global `vfs_ddot` (".."), rehashed at init. -/
def vfs_ddot (hashFn : List Char → Nat) : HStr := hstrOf hashFn ['.', '.']

/-- One `struct v_dnode`, identified in the state by its address.
`nameHash` is the stored hash: after `vfs_dcache_add` it is the
parent-mixed hash, because `__dcache_hash` writes the mixed value back
through its pointer argument. -/
structure DnodeD where
  nameVal : List Char
  nameLen : Nat
  nameHash : Nat
  parent : Option Nat
  children : List Nat
  inode : Option Nat
  refCount : Nat
  sb : Nat
deriving DecidableEq

/-- The mutable counters of one `struct v_inode`. -/
structure InodeSt where
  linkCount : Nat
  openCount : Nat
deriving DecidableEq

/-- The mutable VFS state: the dnode store keyed by address, the dcache
hash buckets (`dnode_cache`, each bucket a list in `hlist` order), the
inode counters, and the next fresh address the allocator hands out. -/
structure WalkSt where
  dnodes : List (Nat × DnodeD)
  buckets : List (Nat × List Nat)
  inodes : List (Nat × InodeSt)
  nextAddr : Nat
deriving DecidableEq

/-- Association-list lookup. -/
def alookup {α : Type} (l : List (Nat × α)) (k : Nat) : Option α :=
  (l.find? (fun p => p.fst == k)).map Prod.snd

/-- Association-list update (insert if absent). -/
def aset {α : Type} (l : List (Nat × α)) (k : Nat) (v : α) : List (Nat × α) :=
  match l with
  | [] => [(k, v)]
  | p :: rest => if p.fst == k then (k, v) :: rest else p :: aset rest k v

def WalkSt.dnode (st : WalkSt) (a : Nat) : Option DnodeD := alookup st.dnodes a

def WalkSt.setDnode (st : WalkSt) (a : Nat) (d : DnodeD) : WalkSt :=
  { st with dnodes := aset st.dnodes a d }

def WalkSt.bucket (st : WalkSt) (i : Nat) : List Nat := (alookup st.buckets i).getD []

def WalkSt.setBucket (st : WalkSt) (i : Nat) (b : List Nat) : WalkSt :=
  { st with buckets := aset st.buckets i b }

def WalkSt.inodeSt (st : WalkSt) (i : Nat) : InodeSt := (alookup st.inodes i).getD ⟨0, 0⟩

def WalkSt.setInodeSt (st : WalkSt) (i : Nat) (s : InodeSt) : WalkSt :=
  { st with inodes := aset st.inodes i s }

/-- `__dcache_hash(parent, &hash)`: add the parent's address to the hash,
fold the high bits into the low ones, and mask for the bucket index.  The
C function writes the mixed value back through `hash`; the pair returned
here is (bucket index, mixed hash written back). -/
def __dcache_hash (parent : Nat) (hash : Nat) : Nat × Nat :=
  let h1 := (hash + parent) % U32
  let h2 := h1 ^^^ (h1 >>> VFS_HASHBITS)
  (h2 &&& VFS_HASH_MASK, h2)

/-- `vfs_dcache_lookup(parent, str)`.  Empty and "." names are identity,
".." is the parent's parent (or the parent itself at the root); otherwise
scan the bucket of the parent-mixed hash for the first dnode whose stored
hash equals the mixed hash.  No bytes are compared. -/
def vfs_dcache_lookup (hashFn : List Char → Nat) (st : WalkSt) (parent : Nat)
    (str : HStr) : Option Nat :=
  if str.len = 0 ∨ HSTR_EQ str (vfs_dot hashFn) = true then some parent
  else if HSTR_EQ str (vfs_ddot hashFn) = true then
    some (((st.dnode parent).bind DnodeD.parent).getD parent)
  else
    let pr := __dcache_hash parent str.hash
    (st.bucket pr.fst).find? fun a =>
      ((st.dnode a).map fun d => d.nameHash == pr.snd).getD false

/-- `vfs_dcache_add(parent, dnode)`: take a cache reference on the dnode,
set its parent, append it to the parent's child list, replace its stored
hash by the parent-mixed hash and push it onto that bucket's chain. -/
def vfs_dcache_add (st : WalkSt) (parent dnode : Nat) : WalkSt :=
  match st.dnode dnode, st.dnode parent with
  | some d, some pd =>
    let pr := __dcache_hash parent d.nameHash
    let st1 := st.setDnode dnode
      { d with refCount := d.refCount + 1, parent := some parent, nameHash := pr.snd }
    let st2 := st1.setDnode parent { pd with children := pd.children ++ [dnode] }
    st2.setBucket pr.fst (dnode :: st2.bucket pr.fst)
  | _, _ => st

/-- `vfs_dcache_remove(dnode)`: unlink from the sibling list and the hash
chain, zero the parent pointer and drop the cache reference.  (The C
function asserts `ref_count == 1`; the assertion holds on every modelled
path that reaches it.) -/
def vfs_dcache_remove (st : WalkSt) (dnode : Nat) : WalkSt :=
  match st.dnode dnode with
  | none => st
  | some d =>
    let st1 :=
      match d.parent with
      | some p =>
        match st.dnode p with
        | some pd => st.setDnode p { pd with children := pd.children.erase dnode }
        | none => st
      | none => st
    let st2 :=
      { st1 with
        buckets := st1.buckets.map fun (pr : Nat × List Nat) => (pr.fst, pr.snd.erase dnode) }
    st2.setDnode dnode { d with parent := none, refCount := d.refCount - 1 }

/-- `vfs_dcache_rehash(new_parent, dnode)`: recompute the full hash from
the name bytes, then remove and re-add under the new parent. -/
def vfs_dcache_rehash (hashFn : List Char → Nat) (st : WalkSt) (newParent dnode : Nat) :
    WalkSt :=
  match st.dnode dnode with
  | none => st
  | some d =>
    let st1 := st.setDnode dnode { d with nameHash := hashFn d.nameVal }
    vfs_dcache_add (vfs_dcache_remove st1 dnode) newParent dnode

/-- A driver invocation recorded by an embedded function.  The claims
about "no driver call happens before this check" are stated as the
emptiness of the recorded list. -/
inductive WEvent where
  | readSymlinkEv (inode : Nat)
  | dirLookupEv (inode : Nat) (name : List Char)
  | mkdirEv (inode : Nat) (name : List Char)
  | unlinkEv (inode : Nat)
  | setSymlinkEv (inode : Nat)
  | createEv (inode : Nat) (name : List Char)
  | renameEv (inode : Nat)
  | rmdirEv (inode : Nat)
deriving DecidableEq

/-- The immutable environment: the hash function and the valid-character
predicate from the missing klibc/fs headers, the per-inode type bits, the
global root, and the driver operation tables (`inode->ops`, `file->ops`,
`sb->fs->types`) that vfs.c treats as external collaborators.  An `Option`
field models a possibly-null function pointer that vfs.c null-checks; a
total field models a pointer it calls unconditionally. -/
structure WalkEnv where
  hashFn : List Char → Nat
  validChar : Char → Bool
  itype : Nat → Nat
  sysroot : Nat
  rootMnt : Bool
  sbRoot : Nat → Option Nat
  fsTypes : Nat → Nat
  allocFails : Bool
  readSymlink : Nat → Except Int (List Char)
  dirLookup : Nat → List Char → Except Int Nat
  mkdirOp : Option (Nat → List Char → Except Int Nat)
  rmdirOp : Nat → Nat → Int
  unlinkOp : Nat → Int
  createOp : Nat → List Char → Except Int Nat
  renameOp : Nat → Nat → Nat → Int
  setSymlinkOp : Option (Nat → List Char → Int)
  seekOp : Nat → Int
  readdirOp : Nat → Int × Option (List Char × Nat × Nat)
  closeOp : Nat → Int
  mntOf : Nat → Nat

/-- `vfs_d_alloc(parent, name)`: grab a fresh dnode (the slab can fail,
yielding NULL after `lru_evict_half` also fails), copy the name with its
hash, inherit the parent's superblock, start with `ref_count = 0` and no
parent link (only `vfs_dcache_add` sets the parent). -/
def vfs_d_alloc (env : WalkEnv) (st : WalkSt) (parent : Option Nat) (name : HStr) :
    Option Nat × WalkSt :=
  if env.allocFails then (none, st)
  else
    let a := st.nextAddr
    let sb :=
      match parent with
      | some p => match st.dnode p with | some pd => pd.sb | none => 0
      | none => 0
    let d : DnodeD := ⟨name.value, name.len, name.hash, none, [], none, 0, sb⟩
    (some a, { st with dnodes := (a, d) :: st.dnodes, nextAddr := a + 1 })

/-- `vfs_assign_inode(assign_to, inode)`: drop the link count of the old
bound inode, bind the new one and raise its link count.  Drivers use this
to populate a dnode from `dir_lookup` / `create` / `mkdir`. -/
def vfs_assign_inode (st : WalkSt) (a : Nat) (iid : Nat) : WalkSt :=
  match st.dnode a with
  | none => st
  | some d =>
    let st1 :=
      match d.inode with
      | some old =>
        let o := st.inodeSt old
        st.setInodeSt old { o with linkCount := o.linkCount - 1 }
      | none => st
    let ni := st1.inodeSt iid
    let st2 := st1.setInodeSt iid { ni with linkCount := ni.linkCount + 1 }
    st2.setDnode a { d with inode := some iid }

/-- `vfs_d_free(dnode)`: drop the bound inode's link count, remove the
dnode from the cache, unhash every child (the detached subtree will be
evicted by the LRU later) and release the dnode.  (The C function asserts
`ref_count == 1`.) -/
def vfs_d_free (st : WalkSt) (a : Nat) : WalkSt :=
  match st.dnode a with
  | none => st
  | some d =>
    let st1 :=
      match d.inode with
      | some i =>
        let s := st.inodeSt i
        st.setInodeSt i { s with linkCount := s.linkCount - 1 }
      | none => st
    let st2 := vfs_dcache_remove st1 a
    let st3 := (((st2.dnode a).map DnodeD.children).getD []).foldl vfs_dcache_remove st2
    { st3 with dnodes := st3.dnodes.filter fun p => p.fst ≠ a }

/-- Outcome of a walk: the resolved dnode with the optional last
component (written for `VFS_WALK_PARENT`), or an errno. -/
inductive WalkRes where
  | ok (dnode : Nat) (comp : Option HStr)
  | err (e : Int)
deriving DecidableEq

/-- A walk's full result: outcome, final cache state, driver invocations
in order. -/
structure WalkOut where
  res : WalkRes
  st : WalkSt
  tr : List WEvent
deriving DecidableEq

/-- The type of the recursive walk entry passed into the loop for symlink
resolution: state, start dnode, link path, options. -/
def SubWalk : Type := WalkSt → Option Nat → List Char → Nat → WalkOut

/-- The prologue of `__vfs_walk` (vfs.c lines 215-233): a leading '/' or a
null start repositions the walk at the filesystem-relative root or the
system root (`panick` when the root has no mount, modelled by `ENOROOT`)
and consumes one character; afterwards `current` holds the first scanned
character and the rest of the path remains. -/
def walkInit (env : WalkEnv) (st : WalkSt) (start : Option Nat) (path : List Char)
    (opts : Nat) : Except Int (Nat × List Char) :=
  if path.head? = some PATH_DELIM ∨ start = none then
    let lvl : Except Int Nat :=
      match start with
      | some s =>
        if opts &&& VFS_WALK_FSRELATIVE ≠ 0 then
          match (st.dnode s).bind (fun d => env.sbRoot d.sb) with
          | some r => .ok r
          | none => .error EASSERT
        else if env.rootMnt then .ok env.sysroot else .error ENOROOT
      | none => if env.rootMnt then .ok env.sysroot else .error ENOROOT
    match lvl with
    | .error e => .error e
    | .ok l => .ok (l, path.drop 1)
  else
    match start with
    | some s => .ok (s, path)
    | none => .error EASSERT

/-- The dcache-lookup / driver-lookup step for one completed component
(vfs.c lines 298-331): consult the dcache under `level`; on a miss
allocate a dnode, call the driver's `dir_lookup` (falling back to `mkdir`
under `VFS_WALK_MKPARENT` when the driver reports ENOENT), insert the new
dnode into the dcache before inspecting the errno, and free it again on
failure.  Returns the advanced dnode or the errno, with the state and the
driver calls made. -/
def walkLookupStep (env : WalkEnv) (opts : Nat) (st : WalkSt) (level : Nat)
    (name : HStr) : Except (Int × WalkSt × List WEvent) (Nat × WalkSt × List WEvent) :=
  match vfs_dcache_lookup env.hashFn st level name with
  | some dn => .ok (dn, st, [])
  | none =>
    match vfs_d_alloc env st (some level) name with
    | (none, st1) => .error (ENOMEM, st1, [])
    | (some dn, st1) =>
      match (st1.dnode level).bind DnodeD.inode with
      | none => .error (EASSERT, st1, [])
      | some iid =>
        let first : Int × WalkSt :=
          match env.dirLookup iid name.value with
          | .ok i2 => (0, vfs_assign_inode st1 dn i2)
          | .error e => (e, st1)
        let second : Int × WalkSt × List WEvent :=
          if first.fst = ENOENT ∧ opts &&& VFS_WALK_MKPARENT ≠ 0 then
            match env.mkdirOp with
            | none => (ENOTSUP, first.snd, [.dirLookupEv iid name.value])
            | some mk =>
              match mk iid name.value with
              | .ok i2 =>
                (0, vfs_assign_inode first.snd dn i2,
                  [.dirLookupEv iid name.value, .mkdirEv iid name.value])
              | .error e =>
                (e, first.snd, [.dirLookupEv iid name.value, .mkdirEv iid name.value])
          else (first.fst, first.snd, [.dirLookupEv iid name.value])
        let st2 := vfs_dcache_add second.snd.fst level dn
        if second.fst = 0 then .ok (dn, st2, second.snd.snd)
        else .error (second.fst, vfs_d_free st2 dn, second.snd.snd)

/-- The component-completion block of the `__vfs_walk` loop (vfs.c lines
254-334): under `VFS_WALK_PARENT` the last component is written out and
the walk stops at its parent; otherwise a symlink at the current level is
dereferenced through the driver and resolved by a recursive walk from the
current level's parent (the resolved dnode is then rehashed under that
parent), and finally the component is looked up and the walk advances via
the continuation `kont`. -/
def walkComplete (env : WalkEnv) (sub : SubWalk) (opts : Nat)
    (kont : WalkSt → Nat → WalkOut) (st : WalkSt) (level : Nat) (acc1 : List Char)
    (la : Option Char) : WalkOut :=
  let name : HStr := ⟨acc1, acc1.length, env.hashFn acc1⟩
  if la = none ∧ opts &&& VFS_WALK_PARENT ≠ 0 then ⟨.ok level (some name), st, []⟩
  else
    match (st.dnode level).bind DnodeD.inode with
    | none => ⟨.err EASSERT, st, []⟩
    | some iid =>
      if env.itype iid &&& VFS_IFSYMLINK ≠ 0 then
        match env.readSymlink iid with
        | .error e => ⟨.err e, st, [.readSymlinkEv iid]⟩
        | .ok link =>
          let pOf := (st.dnode level).bind DnodeD.parent
          let out := sub st pOf link 0
          match out.res with
          | .err e => ⟨.err e, out.st, .readSymlinkEv iid :: out.tr⟩
          | .ok dn _ =>
            match pOf with
            | none => ⟨.err EASSERT, out.st, .readSymlinkEv iid :: out.tr⟩
            | some pp =>
              let st2 := vfs_dcache_rehash env.hashFn out.st pp dn
              match walkLookupStep env opts st2 dn name with
              | .error pr => ⟨.err pr.fst, pr.snd.fst, .readSymlinkEv iid :: out.tr ++ pr.snd.snd⟩
              | .ok pr =>
                let o2 := kont pr.snd.fst pr.fst
                ⟨o2.res, o2.st, .readSymlinkEv iid :: out.tr ++ pr.snd.snd ++ o2.tr⟩
      else
        match walkLookupStep env opts st level name with
        | .error pr => ⟨.err pr.fst, pr.snd.fst, pr.snd.snd⟩
        | .ok pr =>
          let o2 := kont pr.snd.fst pr.fst
          ⟨o2.res, o2.st, pr.snd.snd ++ o2.tr⟩

/-- The character-scanning loop of `__vfs_walk` (vfs.c lines 234-337).
The head of `inp` is the character in `current` (an empty `inp` is the
terminator), its tail carries the lookahead and the unconsumed rest;
`acc` holds the name bytes assembled so far.  Per scanned character the
length bound is checked before the character-validity check; repeated
slashes collapse; a component completes when `current` is the delimiter
or the lookahead is the terminator. -/
def walkLoop (env : WalkEnv) (sub : SubWalk) (opts : Nat) (st : WalkSt) (level : Nat)
    (acc : List Char) (inp : List Char) : WalkOut :=
  match inp with
  | [] => ⟨.ok level none, st, []⟩
  | c :: rest =>
    if c ≠ PATH_DELIM ∧ VFS_NAME_MAXLEN - 1 ≤ acc.length then
      ⟨.err ENAMETOOLONG, st, []⟩
    else if c ≠ PATH_DELIM ∧ env.validChar c = false then
      ⟨.err EINVAL, st, []⟩
    else if c ≠ PATH_DELIM ∧ rest.head? ≠ none then
      walkLoop env sub opts st level (acc ++ [c]) rest
    else
      let acc1 := if c ≠ PATH_DELIM then acc ++ [c] else acc
      if rest.head? = some PATH_DELIM then
        walkLoop env sub opts st level acc1 rest
      else
        walkComplete env sub opts
          (fun st2 lvl2 => walkLoop env sub opts st2 lvl2 [] rest)
          st level acc1 rest.head?

/-- `__vfs_walk` in fuel form: `fuel` is `VFS_SYMLINK_DEPTH - depth`, so
the entry guard `depth >= VFS_SYMLINK_DEPTH` is `fuel = 0` and the
recursive symlink walk at `depth + 1` runs at `fuel - 1`. -/
def walkF (env : WalkEnv) (fuel : Nat) (st : WalkSt) (start : Option Nat)
    (path : List Char) (opts : Nat) : WalkOut :=
  match fuel with
  | 0 => ⟨.err ENAMETOOLONG, st, []⟩
  | Nat.succ f =>
    match walkInit env st start path opts with
    | .error e => ⟨.err e, st, []⟩
    | .ok pr =>
      walkLoop env (fun s a p o => walkF env f s a p o) opts st pr.fst [] pr.snd

/-- `VFS_SYMLINK_DEPTH`, the symlink recursion bound (vfs.c line 197). -/
def VFS_SYMLINK_DEPTH : Nat := 16

/-- `__vfs_walk(start, path, dentry, component, walk_options, depth, buf)`:
fails with ENAMETOOLONG as soon as `depth` reaches `VFS_SYMLINK_DEPTH`,
otherwise repositions the start and scans the path. -/
def __vfs_walk (env : WalkEnv) (st : WalkSt) (start : Option Nat) (path : List Char)
    (opts : Nat) (depth : Nat) : WalkOut :=
  walkF env (VFS_SYMLINK_DEPTH - depth) st start path opts

/-- `vfs_walk(start, path, dentry, component, options)`: a top-level walk
starts at depth 0. -/
def vfs_walk (env : WalkEnv) (st : WalkSt) (start : Option Nat) (path : List Char)
    (opts : Nat) : WalkOut :=
  __vfs_walk env st start path opts 0

/-- The body of the `rmdir` syscall after the walk resolved `a` (vfs.c
lines 1041-1082): read-only filesystem first, then busy (extra dnode
reference or open inode), then non-empty child list, then a null parent,
then the directory check guarding the driver `rmdir`; only a successful
driver call removes the dnode from the cache. -/
def sys_rmdir_post (env : WalkEnv) (st : WalkSt) (a : Nat) : Int × WalkSt :=
  match st.dnode a with
  | none => (EASSERT, st)
  | some d =>
    if env.fsTypes d.sb &&& FSTYPE_ROFS ≠ 0 then (EROFS, st)
    else
      match d.inode with
      | none => (EASSERT, st)
      | some i =>
        if d.refCount > 1 ∨ (st.inodeSt i).openCount > 0 then (EBUSY, st)
        else if d.children ≠ [] then (ENOTEMPTY, st)
        else
          match d.parent with
          | none => (EINVAL, st)
          | some p =>
            match (st.dnode p).bind DnodeD.inode with
            | none => (EASSERT, st)
            | some pi =>
              if env.itype i &&& VFS_IFDIR ≠ 0 then
                let e := env.rmdirOp pi a
                if e = 0 then (0, vfs_dcache_remove st a) else (e, st)
              else (ENOTDIR, st)

/-- The body of the `mkdir` syscall after the walk resolved the parent
and the last component (vfs.c lines 1102-1122): allocate the new dnode,
then reject a read-only filesystem with ENOTSUP (not EROFS), a missing
driver `mkdir` with ENOTSUP and a non-directory parent with ENOTDIR; only
then call the driver, inserting into the dcache on success and freeing
the fresh dnode on any failure. -/
def sys_mkdir_tail (env : WalkEnv) (st : WalkSt) (parent : Nat) (name : HStr) :
    Int × WalkSt × List WEvent :=
  match vfs_d_alloc env st (some parent) name with
  | (none, st1) => (EASSERT, st1, [])
  | (some dir, st1) =>
    match st1.dnode parent with
    | none => (EASSERT, st1, [])
    | some pd =>
      if env.fsTypes pd.sb &&& FSTYPE_ROFS ≠ 0 then (ENOTSUP, vfs_d_free st1 dir, [])
      else
        match env.mkdirOp with
        | none => (ENOTSUP, vfs_d_free st1 dir, [])
        | some mk =>
          match pd.inode with
          | none => (EASSERT, st1, [])
          | some pi =>
            if env.itype pi &&& VFS_IFDIR = 0 then (ENOTDIR, vfs_d_free st1 dir, [])
            else
              match mk pi name.value with
              | .ok i2 =>
                let st2 := vfs_assign_inode st1 dir i2
                (0, vfs_dcache_add st2 parent dir, [.mkdirEv pi name.value])
              | .error e => (e, vfs_d_free st1 dir, [.mkdirEv pi name.value])

/-- `__vfs_do_unlink(dnode)` (vfs.c lines 1127-1155): busy when the dnode
is referenced elsewhere or the inode is open, EISDIR for directories, and
otherwise the driver `unlink` followed by freeing the dnode on success. -/
def __vfs_do_unlink (env : WalkEnv) (st : WalkSt) (a : Nat) : Int × WalkSt × List WEvent :=
  match st.dnode a with
  | none => (EASSERT, st, [])
  | some d =>
    if d.refCount > 1 then (EBUSY, st, [])
    else
      match d.inode with
      | none => (EASSERT, st, [])
      | some i =>
        if (st.inodeSt i).openCount > 0 then (EBUSY, st, [])
        else if env.itype i &&& VFS_IFDIR = 0 then
          let e := env.unlinkOp i
          if e = 0 then (0, vfs_d_free st a, [.unlinkEv i]) else (e, st, [.unlinkEv i])
        else (EISDIR, st, [])

/-- The body of the `unlink` syscall after the walk resolved `a` (vfs.c
lines 1161-1169): a read-only filesystem is rejected with EROFS before
`__vfs_do_unlink` runs. -/
def sys_unlink_tail (env : WalkEnv) (st : WalkSt) (a : Nat) : Int × WalkSt × List WEvent :=
  match st.dnode a with
  | none => (EASSERT, st, [])
  | some d =>
    if env.fsTypes d.sb &&& FSTYPE_ROFS ≠ 0 then (EROFS, st, [])
    else __vfs_do_unlink env st a

/-- The body of the `symlink` syscall after the walk resolved `a` (vfs.c
lines 1300-1316): EROFS on a read-only filesystem, ENOTSUP when the
driver lacks `set_symlink`, otherwise the driver call. -/
def sys_symlink_tail (env : WalkEnv) (st : WalkSt) (a : Nat) (target : List Char) :
    Int × WalkSt × List WEvent :=
  match st.dnode a with
  | none => (EASSERT, st, [])
  | some d =>
    if env.fsTypes d.sb &&& FSTYPE_ROFS ≠ 0 then (EROFS, st, [])
    else
      match d.inode with
      | none => (EASSERT, st, [])
      | some i =>
        match env.setSymlinkOp with
        | none => (ENOTSUP, st, [])
        | some sl => (sl i target, st, [.setSymlinkEv i])

/-- `vfs_do_rename(current, target)` (vfs.c lines 1410-1467): a no-op for
two names of one inode id, EBUSY when either dnode is referenced
elsewhere, EXDEV across superblocks, ENOTEMPTY for a non-empty target
directory; then the driver `rename`, after which the source dnode takes
the target's name, is rehashed under the target's parent, and the target
dnode is freed.  No read-only check appears anywhere in this path. -/
def vfs_do_rename (env : WalkEnv) (st : WalkSt) (cur target : Nat) :
    Int × WalkSt × List WEvent :=
  match st.dnode cur, st.dnode target with
  | some cd, some td =>
    match cd.inode, td.inode with
    | some ci, some ti =>
      if ci = ti then (0, st, [])
      else if cd.refCount > 1 ∨ td.refCount > 1 then (EBUSY, st, [])
      else if cd.sb ≠ td.sb then (EXDEV, st, [])
      else if td.children ≠ [] then (ENOTEMPTY, st, [])
      else
        let e := env.renameOp ci cur target
        if e ≠ 0 then (e, st, [.renameEv ci])
        else
          let st1 := st.setDnode cur
            { cd with nameVal := td.nameVal, nameLen := td.nameLen, nameHash := td.nameHash }
          match td.parent with
          | none => (EASSERT, st1, [.renameEv ci])
          | some np =>
            (0, vfs_d_free (vfs_dcache_rehash env.hashFn st1 np cur) target, [.renameEv ci])
    | _, _ => (EASSERT, st, [])
  | _, _ => (EASSERT, st, [])

/-- The create arm of `__vfs_try_locate_file` under `FLOCATE_CREATE_EMPTY`
(vfs.c lines 674-692): allocate a dnode for the missing last component
and call the parent inode's `create` driver directly — no read-only check
guards it — inserting into the dcache on success. -/
def flocate_create (env : WalkEnv) (st : WalkSt) (parent : Nat) (name : HStr) :
    Int × WalkSt × List WEvent :=
  match vfs_d_alloc env st (some parent) name with
  | (none, st1) => (ENOMEM, st1, [])
  | (some fnew, st1) =>
    match (st1.dnode parent).bind DnodeD.inode with
    | none => (EASSERT, st1, [])
    | some pi =>
      match env.createOp pi name.value with
      | .ok i2 =>
        let st2 := vfs_assign_inode st1 fnew i2
        (0, vfs_dcache_add st2 parent fnew, [.createEv pi name.value])
      | .error e => (e, vfs_d_free st1 fnew, [.createEv pi name.value])

/- lseek support: the C code computes the target as
  `(size_t)((int)file->f_pos + offset)` etc. on a 32-bit machine. -/

/-- Reinterpret a `size_t` value as a signed 32-bit `int`. -/
def i32ofNat (n : Nat) : Int :=
  let m := n % U32
  if m < 2 ^ 31 then (m : Int) else (m : Int) - (U32 : Int)

/-- Convert a signed value back to a `size_t` (reduction modulo 2^32). -/
def u32ofInt (x : Int) : Nat := (x % (U32 : Int)).toNat

/-- Whence values of `lseek` (header values; the switch only compares). -/
def FSEEK_SET : Nat := 0
def FSEEK_CUR : Nat := 1
def FSEEK_END : Nat := 2

/-- The position-relevant fields of an open file: `file->f_pos` and the
bound inode's `fsize`. -/
structure VFileM where
  fpos : Nat
  fsize : Nat
deriving DecidableEq

/-- The body of the `lseek` syscall after fd resolution (vfs.c lines
890-908): compute the target from the whence mode (an unmatched mode
leaves the current position), call the driver's `seek` with it, and
update `f_pos` only when the driver reports success.  The third result
component is the position handed to the driver. -/
def sys_lseek_file (env : WalkEnv) (f : VFileM) (offset : Int) (whence : Nat) :
    Int × VFileM × Nat :=
  let fpos :=
    if whence = FSEEK_CUR then u32ofInt (i32ofNat f.fpos + offset)
    else if whence = FSEEK_END then u32ofInt (i32ofNat f.fsize + offset)
    else if whence = FSEEK_SET then u32ofInt offset
    else f.fpos
  let e := env.seekOp fpos
  if e = 0 then (e, { f with fpos := fpos }, fpos) else (e, f, fpos)

/-- `DIRENT_NAME_MAX_LEN` from the dirent header (value immaterial to the
claims; `strncpy` truncates the copied name to it). -/
def DIRENT_NAME_MAX_LEN : Nat := 128

/-- The user-visible `struct dirent`, including the stored offset the
readdir syscall advances. -/
structure Dirent where
  d_name : List Char
  d_nlen : Nat
  d_type : Nat
  d_offset : Nat
deriving DecidableEq

/-- `__vfs_readdir_callback(dctx, name, len, dtype)` (vfs.c lines
750-760): copy the entry name (truncated), length and type into the
dirent. -/
def __vfs_readdir_callback (dent : Dirent) (name : List Char) (len : Nat) (dtype : Nat) :
    Dirent :=
  { dent with d_name := name.take DIRENT_NAME_MAX_LEN, d_nlen := len, d_type := dtype }

/-- The body of the `readdir` syscall after fd resolution (vfs.c lines
771-796), taking the file inode's type bits and the dirent.  ENOTDIR for
a non-directory; synthetic "." at stored offset 0 and ".." at offset 1;
at offset k ≥ 2 the driver's `readdir` runs with context index k - 2
(the driver may fill the dirent through the callback, modelled by the
optional entry of the oracle).  The stored offset advances by one exactly
when the call succeeds (code 1).  The last result component lists the
driver indices invoked. -/
def sys_readdir_post (env : WalkEnv) (itype : Nat) (dent : Dirent) :
    Int × Dirent × List Nat :=
  if itype &&& VFS_IFDIR = 0 then (ENOTDIR, dent, [])
  else if dent.d_offset = 0 then
    (1, { __vfs_readdir_callback dent ['.'] 1 0 with d_offset := dent.d_offset + 1 }, [])
  else if dent.d_offset = 1 then
    (1, { __vfs_readdir_callback dent ['.', '.'] 2 0 with d_offset := dent.d_offset + 1 }, [])
  else
    let k := dent.d_offset - 2
    let r := env.readdirOp k
    let dent1 :=
      match r.snd with
      | some pr => __vfs_readdir_callback dent pr.fst pr.snd.fst pr.snd.snd
      | none => dent
    if r.fst = 1 then (1, { dent1 with d_offset := dent.d_offset + 1 }, [k])
    else (r.fst, dent1, [k])

/- File-descriptor layer for dup2. -/

/-- `VFS_MAX_FD`, the fixed length of the per-task fd array (header
value; the claims depend only on it being positive and finite). -/
def VFS_MAX_FD : Nat := 32

/-- One fd slot: the file it points to and its per-descriptor flags. -/
structure FdRec where
  fileId : Nat
  flags : Nat
deriving DecidableEq

/-- The fields of one open `struct v_file` that the fd layer touches. -/
structure FileRec where
  dnode : Nat
  inode : Nat
  refCount : Nat

/-- The per-task fd table together with the object counters the fd
operations mutate: open files, dnode reference counts, inode open counts
and mount busy counters. -/
structure FdSt where
  fds : Nat → Option FdRec
  files : Nat → Option FileRec
  dnodeRef : Nat → Nat
  inodeOpen : Nat → Nat
  mntBusy : Nat → Nat

/-- `TEST_FD(fd)`: the fd is inside the fixed table range.  Modelled from
the spec: `__vfs_getfd` validates the fd range and non-nullness. -/
def TEST_FD (fd : Int) : Bool := 0 ≤ fd ∧ fd < (VFS_MAX_FD : Int)

/-- The syscall glue turning an errno into the syscall's return value;
the macro is outside the tree, so the sign convention is modelled. -/
def DO_STATUS (e : Int) : Int := -e

/-- `vfs_close(file)` (vfs.c lines 437-450): the driver `close` first; on
success drop the dnode reference, the inode open count and the mount busy
mark, and release the file. -/
def vfs_close_m (env : WalkEnv) (st : FdSt) (fid : Nat) : Int × FdSt :=
  match st.files fid with
  | none => (EASSERT, st)
  | some f =>
    let e := env.closeOp fid
    if e = 0 then
      (0,
        { st with
          files := fun x => if x = fid then none else st.files x
          dnodeRef := fun x => if x = f.dnode then st.dnodeRef x - 1 else st.dnodeRef x
          inodeOpen := fun x => if x = f.inode then st.inodeOpen x - 1 else st.inodeOpen x
          mntBusy := fun x =>
            if x = env.mntOf f.dnode then st.mntBusy x - 1 else st.mntBusy x })
    else (e, st)

/-- `vfs_dup_fd(old, new)` (vfs.c lines 1221-1234): copy the slot and
take one more reference on the file. -/
def vfs_dup_fd_m (st : FdSt) (old : FdRec) : FdRec × FdSt :=
  (old,
    { st with
      files := fun x =>
        if x = old.fileId then (st.files x).map fun f => { f with refCount := f.refCount + 1 }
        else st.files x })

/-- `vfs_dup2(oldfd, newfd)` (vfs.c lines 1236-1266): identical
descriptors return immediately; otherwise the old fd is resolved, the new
fd is range-checked, a file already sitting in the new slot is closed,
and the old slot is duplicated into the new one. -/
def vfs_dup2 (env : WalkEnv) (st : FdSt) (oldfd newfd : Int) : Int × FdSt :=
  if newfd = oldfd then (newfd, st)
  else
    match (if TEST_FD oldfd then st.fds oldfd.toNat else none) with
    | none => (DO_STATUS EBADF, st)
    | some ofd =>
      if ¬ TEST_FD newfd then (DO_STATUS EBADF, st)
      else
        let closeRes : Int × FdSt :=
          match st.fds newfd.toNat with
          | some nfd => vfs_close_m env st nfd.fileId
          | none => (0, st)
        if closeRes.fst ≠ 0 then (DO_STATUS closeRes.fst, closeRes.snd)
        else
          let pr := vfs_dup_fd_m closeRes.snd ofd
          (newfd,
            { pr.snd with
              fds := fun x => if x = newfd.toNat then some pr.fst else pr.snd.fds x })

/- Concrete instances used by the boundary-behavior claims. -/

/-- A concrete full hash for the scenarios: base-256 positional hash
reduced modulo 2^32 (stands in for the klibc string hash). -/
def cHash : List Char → Nat :=
  fun l => l.foldl (fun h c => (h * 256 + c.toNat) % U32) 0

/-- A 17-deep symlink chain: the root (address 1, inode 100) holds
seventeen symlink dnodes at addresses 10+i whose names are the single
letters starting at a; symlink i points at the path through the next
letter, so resolving through link 0 chains through all seventeen. -/
def envC1 : WalkEnv where
  hashFn := cHash
  validChar := fun _ => true
  itype := fun i => if i = 100 then VFS_IFDIR else if 200 ≤ i then VFS_IFSYMLINK else 0
  sysroot := 1
  rootMnt := true
  sbRoot := fun _ => some 1
  fsTypes := fun _ => 0
  allocFails := false
  readSymlink := fun i =>
    if 200 ≤ i ∧ i < 217 then .ok [PATH_DELIM, Char.ofNat (97 + (i - 200) + 1), PATH_DELIM, 'x']
    else .error EINVAL
  dirLookup := fun _ _ => .error ENOENT
  mkdirOp := none
  rmdirOp := fun _ _ => 0
  unlinkOp := fun _ => 0
  createOp := fun _ _ => .error ENOTSUP
  renameOp := fun _ _ _ => 0
  setSymlinkOp := none
  seekOp := fun _ => 0
  readdirOp := fun _ => (0, none)
  closeOp := fun _ => 0
  mntOf := fun _ => 0

/-- The cache state for the symlink chain: root plus the seventeen
symlink dnodes, each inserted with `vfs_dcache_add` under the root. -/
def stC1 : WalkSt :=
  let root : DnodeD := ⟨[], 0, 0, none, [], some 100, 1, 0⟩
  let base : WalkSt :=
    ⟨(1, root) ::
      (List.range 17).map (fun i =>
        (10 + i,
          ⟨[Char.ofNat (97 + i)], 1, cHash [Char.ofNat (97 + i)], none, [],
            some (200 + i), 0, 0⟩)),
      [], [], 1000⟩
  (List.range 17).foldl (fun s i => vfs_dcache_add s 1 (10 + i)) base

/-- The path whose resolution chains through the seventeen symlinks. -/
def c1path : List Char := [PATH_DELIM, 'a', PATH_DELIM, 'x']

/-- A 127-byte component name (`VFS_NAME_MAXLEN - 1` bytes). -/
def c2name : List Char := List.replicate 127 'a'

/-- A cache holding the 127-byte name under the root, for the boundary
acceptance check. -/
def stC2 : WalkSt :=
  let root : DnodeD := ⟨[], 0, 0, none, [], some 100, 1, 0⟩
  let child : DnodeD := ⟨c2name, 127, cHash c2name, none, [], some 300, 0, 0⟩
  vfs_dcache_add ⟨[(1, root), (2, child)], [], [], 100⟩ 1 2

/-- An environment whose every filesystem is read-only and whose driver
does provide `mkdir`. -/
def envC5 : WalkEnv :=
  { envC1 with fsTypes := fun _ => FSTYPE_ROFS, mkdirOp := some fun _ _ => .ok 999 }

/-- A minimal cache with just the root directory. -/
def stC5 : WalkSt := ⟨[(1, ⟨[], 0, 0, none, [], some 100, 1, 0⟩)], [], [], 50⟩

/-- An environment where inodes 100 and 201 are directories. -/
def envC6 : WalkEnv :=
  { envC1 with itype := fun i => if i = 100 ∨ i = 201 then VFS_IFDIR else 0 }

/-- A cache with directory 2 under the root holding child 3: the rmdir
target that still has a child. -/
def stC6 : WalkSt :=
  let base : WalkSt :=
    ⟨[(1, ⟨[], 0, 0, none, [], some 100, 1, 0⟩),
      (2, ⟨['d'], 1, cHash ['d'], none, [], some 201, 0, 0⟩),
      (3, ⟨['e'], 1, cHash ['e'], none, [], some 202, 0, 0⟩)], [], [], 60⟩
  vfs_dcache_add (vfs_dcache_add base 1 2) 2 3

/-- The same cache with directory 2's inode opened once. -/
def stC6b : WalkSt := { stC6 with inodes := [(201, ⟨0, 1⟩)] }

/- ------------------------------------------------------------------ -/
/- Theorems.                                                           -/
/- ------------------------------------------------------------------ -/

/-- C1: for every path walk, when the symlink recursion depth counter
reaches `VFS_SYMLINK_DEPTH = 16` the walk fails with ENAMETOOLONG, and in
particular resolving a path whose resolution chains through 17 nested
symlinks returns ENAMETOOLONG. -/
theorem c1_symlink_depth_enametoolong :
    (∀ (env : WalkEnv) (st : WalkSt) (start : Option Nat) (path : List Char)
        (opts depth : Nat), VFS_SYMLINK_DEPTH ≤ depth →
        __vfs_walk env st start path opts depth = ⟨.err ENAMETOOLONG, st, []⟩) ∧
    (vfs_walk envC1 stC1 none c1path 0).res = .err ENAMETOOLONG := by
  refine ⟨?_, by decide⟩
  intro env st start path opts depth h
  unfold __vfs_walk
  rw [Nat.sub_eq_zero_of_le h]
  rfl

/-- Witness for C1: a walk entered at depth 16 fails immediately with
ENAMETOOLONG. -/
theorem c1_symlink_depth_witness :
    __vfs_walk envC1 stC1 none c1path 0 16 = ⟨.err ENAMETOOLONG, stC1, []⟩ :=
  c1_symlink_depth_enametoolong.1 envC1 stC1 none c1path 0 16 (by decide)

/-- C3: dcache lookup of a non-special name decides a hit by hash
equality alone — the result of the lookup depends only on the queried
hash, so two names with colliding full hashes resolve to the same dnode,
and any returned dnode comes from the bucket of the parent-mixed hash
with a stored hash equal to that mixed hash. -/
theorem c3_dcache_hash_only_lookup :
    ∀ (hashFn : List Char → Nat) (st : WalkSt) (parent : Nat) (s1 s2 : HStr),
      s1.hash = s2.hash → s1.len ≠ 0 → s2.len ≠ 0 →
      s1.hash ≠ hashFn ['.'] → s1.hash ≠ hashFn ['.', '.'] →
      vfs_dcache_lookup hashFn st parent s1 = vfs_dcache_lookup hashFn st parent s2 ∧
      ∀ a, vfs_dcache_lookup hashFn st parent s1 = some a →
        a ∈ st.bucket (__dcache_hash parent s1.hash).fst ∧
        ∃ d, st.dnode a = some d ∧ d.nameHash = (__dcache_hash parent s1.hash).snd := by
  intro hashFn st parent s1 s2 hh h1 h2 hd hdd
  have key : ∀ (s : HStr), s.len ≠ 0 → s.hash ≠ hashFn ['.'] → s.hash ≠ hashFn ['.', '.'] →
      vfs_dcache_lookup hashFn st parent s =
        (st.bucket (__dcache_hash parent s.hash).fst).find? (fun a =>
          ((st.dnode a).map fun d =>
            d.nameHash == (__dcache_hash parent s.hash).snd).getD false) := by
    intro s hs hsd hsdd
    have hc1 : ¬(s.len = 0 ∨ HSTR_EQ s (vfs_dot hashFn) = true) := by
      rintro (h | h)
      · exact hs h
      · exact hsd (by simpa [HSTR_EQ, vfs_dot, hstrOf] using h)
    have hc2 : ¬(HSTR_EQ s (vfs_ddot hashFn) = true) := by
      intro h
      exact hsdd (by simpa [HSTR_EQ, vfs_ddot, hstrOf] using h)
    unfold vfs_dcache_lookup
    rw [if_neg hc1, if_neg hc2]
  constructor
  · rw [key s1 h1 hd hdd, key s2 h2 (hh ▸ hd) (hh ▸ hdd), hh]
  · intro a ha
    rw [key s1 h1 hd hdd] at ha
    refine ⟨List.mem_of_find?_eq_some ha, ?_⟩
    have hp := List.find?_some ha
    cases hdn : st.dnode a with
    | none => rw [hdn] at hp; simp at hp
    | some d =>
      rw [hdn] at hp
      refine ⟨d, rfl, ?_⟩
      simpa using hp

/-- Witness for C3: in the symlink-chain cache, two distinct one-letter
names carrying the same full hash resolve to the same dnode, and the hit
has the mixed hash. -/
theorem c3_dcache_hash_only_witness :
    vfs_dcache_lookup cHash stC1 1 ⟨['a'], 1, 97⟩ =
      vfs_dcache_lookup cHash stC1 1 ⟨['z'], 1, 97⟩ ∧
    10 ∈ stC1.bucket (__dcache_hash 1 97).fst ∧
    ∃ d, stC1.dnode 10 = some d ∧ d.nameHash = (__dcache_hash 1 97).snd := by
  have h := c3_dcache_hash_only_lookup cHash stC1 1 ⟨['a'], 1, 97⟩ ⟨['z'], 1, 97⟩
    (by decide) (by decide) (by decide) (by decide) (by decide)
  exact ⟨h.1, h.2 10 (by decide)⟩

/-- C4: dcache lookup treats "." as the parent itself, ".." as the
parent's parent (or the parent itself when that is null), and the empty
name as the parent itself; none of the three consults the hash table (the
result is invariant under replacing the buckets). -/
theorem c4_dcache_special_names :
    ∀ (hashFn : List Char → Nat) (st : WalkSt) (parent : Nat) (d : DnodeD)
      (bks : List (Nat × List Nat)),
      st.dnode parent = some d →
      hashFn ['.'] ≠ hashFn ['.', '.'] →
      vfs_dcache_lookup hashFn st parent (vfs_dot hashFn) = some parent ∧
      vfs_dcache_lookup hashFn st parent (vfs_ddot hashFn) = some (d.parent.getD parent) ∧
      vfs_dcache_lookup hashFn st parent (hstrOf hashFn []) = some parent ∧
      vfs_dcache_lookup hashFn { st with buckets := bks } parent (vfs_ddot hashFn) =
        vfs_dcache_lookup hashFn st parent (vfs_ddot hashFn) := by
  intro hashFn st parent d bks hdn hne
  have hddot : ∀ (st' : WalkSt), st'.dnode parent = some d →
      vfs_dcache_lookup hashFn st' parent (vfs_ddot hashFn) =
        some (d.parent.getD parent) := by
    intro st' hdn'
    have hc1 : ¬((vfs_ddot hashFn).len = 0 ∨
        HSTR_EQ (vfs_ddot hashFn) (vfs_dot hashFn) = true) := by
      rintro (h | h)
      · have h2 : (vfs_ddot hashFn).len = 2 := rfl
        omega
      · have h3 : hashFn ['.', '.'] = hashFn ['.'] := by
          simpa [HSTR_EQ, vfs_dot, vfs_ddot, hstrOf] using h
        exact hne h3.symm
    have hc2 : HSTR_EQ (vfs_ddot hashFn) (vfs_ddot hashFn) = true := by
      simp [HSTR_EQ]
    unfold vfs_dcache_lookup
    rw [if_neg hc1, if_pos hc2]
    rw [hdn']
    rfl
  refine ⟨?_, hddot st hdn, ?_, ?_⟩
  · unfold vfs_dcache_lookup
    rw [if_pos (Or.inr (by simp [HSTR_EQ]))]
  · unfold vfs_dcache_lookup
    rw [if_pos (Or.inl (show (hstrOf hashFn []).len = 0 from rfl))]
  · rw [hddot st hdn, hddot { st with buckets := bks } hdn]

/-- Scanning a component of at least `VFS_NAME_MAXLEN` bytes aborts the
walk with ENAMETOOLONG, leaving the state untouched, performing no driver
call and never entering the symlink recursion (`sub` is arbitrary): the
length bound is checked before anything else happens for the
component. -/
theorem walkLoop_scan_too_long (env : WalkEnv) (sub : SubWalk) (opts : Nat) :
    ∀ (w : List Char) (c : Char) (rest : List Char) (st : WalkSt) (level : Nat)
      (acc : List Char),
      (∀ x ∈ c :: w, x ≠ PATH_DELIM ∧ env.validChar x = true) →
      VFS_NAME_MAXLEN ≤ acc.length + (c :: w).length →
      walkLoop env sub opts st level acc (c :: (w ++ rest)) = ⟨.err ENAMETOOLONG, st, []⟩ := by
  intro w
  induction w with
  | nil =>
    intro c rest st level acc hv hlen
    have hc := hv c (by simp)
    simp only [List.length_cons, List.length_nil] at hlen
    rw [walkLoop]
    rw [if_pos ⟨hc.1, by omega⟩]
  | cons b w ih =>
    intro c rest st level acc hv hlen
    have hc := hv c (by simp)
    by_cases hbig : VFS_NAME_MAXLEN - 1 ≤ acc.length
    · rw [walkLoop]
      rw [if_pos ⟨hc.1, hbig⟩]
    · rw [walkLoop]
      rw [if_neg (fun hcon => hbig hcon.2),
          if_neg (fun hcon => by rw [hc.2] at hcon; exact absurd hcon.2 (by simp)),
          if_pos ⟨hc.1, by simp⟩]
      have hmono : ∀ x, x ∈ b :: w → x ∈ c :: b :: w := by
        intro x hx
        simp [List.mem_cons] at hx ⊢
        tauto
      refine ih b rest st level (acc ++ [c]) (fun x hx => hv x (hmono x hx)) ?_
      simp only [List.length_append, List.length_cons] at hlen ⊢
      omega

/-- Scanning a component that fits in `VFS_NAME_MAXLEN - 1` bytes and
ends the input reaches the completion block with the whole component
assembled. -/
theorem walkLoop_scan_fits (env : WalkEnv) (sub : SubWalk) (opts : Nat) :
    ∀ (w : List Char) (c : Char) (st : WalkSt) (level : Nat) (acc : List Char),
      (∀ x ∈ c :: w, x ≠ PATH_DELIM ∧ env.validChar x = true) →
      acc.length + (c :: w).length ≤ VFS_NAME_MAXLEN - 1 →
      walkLoop env sub opts st level acc (c :: w) =
        walkComplete env sub opts (fun st2 lvl2 => walkLoop env sub opts st2 lvl2 [] [])
          st level (acc ++ (c :: w)) none := by
  intro w
  induction w with
  | nil =>
    intro c st level acc hv hlen
    have hc := hv c (by simp)
    simp only [List.length_cons, List.length_nil] at hlen
    rw [walkLoop]
    rw [if_neg (fun hcon => by omega),
        if_neg (fun hcon => by rw [hc.2] at hcon; exact absurd hcon.2 (by simp)),
        if_neg (fun hcon => by simp at hcon),
        if_neg (by simp)]
    simp only [List.head?_nil]
    rw [if_pos hc.1]
  | cons b w ih =>
    intro c st level acc hv hlen
    have hc := hv c (by simp)
    simp only [List.length_cons] at hlen
    rw [walkLoop]
    rw [if_neg (fun hcon => by omega),
        if_neg (fun hcon => by rw [hc.2] at hcon; exact absurd hcon.2 (by simp)),
        if_pos ⟨hc.1, by simp⟩]
    have hmono : ∀ x, x ∈ b :: w → x ∈ c :: b :: w := by
      intro x hx
      simp [List.mem_cons] at hx ⊢
      tauto
    rw [ih b st level (acc ++ [c]) (fun x hx => hv x (hmono x hx))
        (by simp only [List.length_append, List.length_cons, List.length_nil]; omega)]
    simp

/-- C2: a component of exactly `VFS_NAME_MAXLEN - 1` bytes passes the
walker's scan (with a dcache hit the walk succeeds), while a component of
`VFS_NAME_MAXLEN` bytes or more aborts the walk with ENAMETOOLONG before
any dcache insertion or driver call for that component, whatever follows
it and whatever the drivers would answer. -/
theorem c2_name_length_boundary :
    (∀ (env : WalkEnv) (sub : SubWalk) (opts : Nat) (st : WalkSt) (level : Nat)
        (c : Char) (w rest : List Char),
        (∀ x ∈ c :: w, x ≠ PATH_DELIM ∧ env.validChar x = true) →
        VFS_NAME_MAXLEN ≤ (c :: w).length →
        walkLoop env sub opts st level [] (c :: (w ++ rest)) =
          ⟨.err ENAMETOOLONG, st, []⟩) ∧
    (∀ (env : WalkEnv) (st : WalkSt) (s : Nat) (c : Char) (w : List Char) (iid d : Nat),
        (∀ x ∈ c :: w, x ≠ PATH_DELIM ∧ env.validChar x = true) →
        (c :: w).length = VFS_NAME_MAXLEN - 1 →
        (st.dnode s).bind DnodeD.inode = some iid →
        env.itype iid &&& VFS_IFSYMLINK = 0 →
        vfs_dcache_lookup env.hashFn st s ⟨c :: w, (c :: w).length, env.hashFn (c :: w)⟩ =
          some d →
        vfs_walk env st (some s) (c :: w) 0 = ⟨.ok d none, st, []⟩) := by
  constructor
  · intro env sub opts st level c w rest hv hlen
    exact walkLoop_scan_too_long env sub opts w c rest st level [] hv (by simpa using hlen)
  · intro env st s c w iid d hv hlen hino hsym hhit
    have hc := hv c (by simp)
    unfold vfs_walk __vfs_walk
    have hfuel : VFS_SYMLINK_DEPTH - 0 = Nat.succ 15 := rfl
    rw [hfuel]
    rw [walkF]
    have hinit : walkInit env st (some s) (c :: w) 0 = .ok (s, c :: w) := by
      have hcond : ¬((c :: w).head? = some PATH_DELIM ∨ (some s : Option Nat) = none) := by
        rintro (h | h)
        · simp at h
          exact hc.1 h
        · simp at h
      unfold walkInit
      rw [if_neg hcond]
    rw [hinit]
    simp only
    rw [walkLoop_scan_fits env _ 0 w c st s [] hv (by simpa using Nat.le_of_eq hlen)]
    unfold walkComplete
    rw [if_neg (by simp [VFS_WALK_PARENT])]
    simp only [List.nil_append, hino]
    rw [if_neg (by simp [hsym])]
    unfold walkLookupStep
    simp only [hhit]
    rw [walkLoop]
    rfl

set_option maxRecDepth 8000 in
/-- Witness for C2: in a cache holding the 127-byte name aaa...a under
the root, walking that name succeeds, while the 128-byte name aborts with
ENAMETOOLONG without touching state or drivers. -/
theorem c2_name_length_witness :
    walkLoop envC1 (fun s2 _ _ _ => ⟨.err 0, s2, []⟩) 0 stC2 1 []
        ('a' :: (List.replicate 127 'a' ++ [])) = ⟨.err ENAMETOOLONG, stC2, []⟩ ∧
    vfs_walk envC1 stC2 (some 1) ('a' :: List.replicate 126 'a') 0 = ⟨.ok 2 none, stC2, []⟩ := by
  constructor
  · exact c2_name_length_boundary.1 envC1 (fun s2 _ _ _ => ⟨.err 0, s2, []⟩) 0 stC2 1 'a'
      (List.replicate 127 'a') [] (by decide) (by decide)
  · exact c2_name_length_boundary.2 envC1 stC2 1 'a' (List.replicate 126 'a') 100 2
      (by decide) (by decide) (by decide) (by decide) (by decide)

/-- Witness for C4: under the first symlink dnode of the chain cache,
"." resolves to the dnode itself and ".." to the root. -/
theorem c4_dcache_special_witness :
    vfs_dcache_lookup cHash stC1 10 (vfs_dot cHash) = some 10 ∧
    vfs_dcache_lookup cHash stC1 10 (vfs_ddot cHash) = some 1 := by
  have h := c4_dcache_special_names cHash stC1 10 ⟨['a'], 1, 98, some 1, [], some 200, 1, 0⟩
    [] (by decide) (by decide)
  exact ⟨h.1, by simpa using h.2.1⟩

/-- An association list with a fresh key prepended answers old keys
unchanged. -/
theorem alookup_cons_ne {α : Type} (k k' : Nat) (v : α) (l : List (Nat × α))
    (h : k ≠ k') : alookup ((k, v) :: l) k' = alookup l k' := by
  unfold alookup
  rw [List.find?_cons_of_neg]
  simp [h]

/-- C5 counterexample: the claim says mkdir on a read-only filesystem
returns EROFS; on a concrete read-only filesystem with a full driver the
mkdir syscall body returns ENOTSUP instead. -/
theorem c5_rofs_counterexample :
    envC5.fsTypes 0 &&& FSTYPE_ROFS ≠ 0 ∧
    (sys_mkdir_tail envC5 stC5 1 ⟨['d'], 1, cHash ['d']⟩).fst = ENOTSUP ∧
    (sys_mkdir_tail envC5 stC5 1 ⟨['d'], 1, cHash ['d']⟩).fst ≠ EROFS ∧
    (sys_mkdir_tail envC5 stC5 1 ⟨['d'], 1, cHash ['d']⟩).snd.snd = [] := by
  decide

/-- C5 amended: among the destructive operations only unlink and symlink
reject a read-only filesystem with EROFS before any driver call; mkdir
rejects it before any driver call but with ENOTSUP; rename and the create
arm of open perform no read-only check at all (their behavior is
invariant under changing every filesystem's type bits). -/
theorem c5_rofs_amended :
    (∀ (env : WalkEnv) (st : WalkSt) (a : Nat) (d : DnodeD),
        st.dnode a = some d → env.fsTypes d.sb &&& FSTYPE_ROFS ≠ 0 →
        sys_unlink_tail env st a = (EROFS, st, [])) ∧
    (∀ (env : WalkEnv) (st : WalkSt) (a : Nat) (d : DnodeD) (target : List Char),
        st.dnode a = some d → env.fsTypes d.sb &&& FSTYPE_ROFS ≠ 0 →
        sys_symlink_tail env st a target = (EROFS, st, [])) ∧
    (∀ (env : WalkEnv) (st : WalkSt) (parent : Nat) (name : HStr) (pd : DnodeD),
        st.dnode parent = some pd → env.fsTypes pd.sb &&& FSTYPE_ROFS ≠ 0 →
        env.allocFails = false → st.dnode st.nextAddr = none →
        (sys_mkdir_tail env st parent name).fst = ENOTSUP ∧
        (sys_mkdir_tail env st parent name).snd.snd = []) ∧
    (∀ (env : WalkEnv) (f : Nat → Nat) (st : WalkSt) (cur target : Nat),
        vfs_do_rename { env with fsTypes := f } st cur target =
          vfs_do_rename env st cur target) ∧
    (∀ (env : WalkEnv) (f : Nat → Nat) (st : WalkSt) (parent : Nat) (name : HStr),
        flocate_create { env with fsTypes := f } st parent name =
          flocate_create env st parent name) := by
  refine ⟨?_, ?_, ?_, ?_, ?_⟩
  · intro env st a d hdn hro
    unfold sys_unlink_tail
    simp only [hdn]
    rw [if_pos hro]
  · intro env st a d target hdn hro
    unfold sys_symlink_tail
    simp only [hdn]
    rw [if_pos hro]
  · intro env st parent name pd hdn hro halloc hfresh
    have hne2 : st.nextAddr ≠ parent := by
      intro h
      rw [h, hdn] at hfresh
      exact absurd hfresh (by simp)
    unfold sys_mkdir_tail vfs_d_alloc
    simp only [halloc, Bool.false_eq_true, if_false, hdn]
    have hd1 : ∀ (d0 : DnodeD),
        WalkSt.dnode ⟨(st.nextAddr, d0) :: st.dnodes, st.buckets, st.inodes, st.nextAddr + 1⟩
          parent = some pd := by
      intro d0
      show alookup ((st.nextAddr, d0) :: st.dnodes) parent = some pd
      rw [alookup_cons_ne _ _ _ _ hne2]
      exact hdn
    rw [hd1]
    simp [hro]
  · intro env f st cur target
    rfl
  · intro env f st parent name
    rfl

/-- Witness for C5 amended: on the concrete read-only state, unlink
reports EROFS untouched and the mkdir body reports ENOTSUP with no driver
call. -/
theorem c5_rofs_amended_witness :
    sys_unlink_tail envC5 stC5 1 = (EROFS, stC5, []) ∧
    (sys_mkdir_tail envC5 stC5 1 ⟨['d'], 1, cHash ['d']⟩).fst = ENOTSUP ∧
    (sys_mkdir_tail envC5 stC5 1 ⟨['d'], 1, cHash ['d']⟩).snd.snd = [] := by
  refine ⟨?_, ?_⟩
  · exact c5_rofs_amended.1 envC5 stC5 1 ⟨[], 0, 0, none, [], some 100, 1, 0⟩
      (by decide) (by decide)
  · exact c5_rofs_amended.2.2.1 envC5 stC5 1 ⟨['d'], 1, cHash ['d']⟩
      ⟨[], 0, 0, none, [], some 100, 1, 0⟩ (by decide) (by decide) (by decide) (by decide)

/-- C6: on a writable filesystem, rmdir of a directory referenced only by
the cache and not open, but still holding children, returns ENOTEMPTY and
changes nothing — the state (dcache, parents, children) is returned
untouched; rmdir of a directory referenced elsewhere (extra dnode
reference or positive inode open count) returns EBUSY, also changing
nothing. -/
theorem c6_rmdir_notempty_ebusy :
    ∀ (env : WalkEnv) (st : WalkSt) (a : Nat) (d : DnodeD) (i : Nat),
      st.dnode a = some d → d.inode = some i →
      env.fsTypes d.sb &&& FSTYPE_ROFS = 0 →
      env.itype i &&& VFS_IFDIR ≠ 0 →
      ((d.refCount = 1 → (st.inodeSt i).openCount = 0 → d.children ≠ [] →
          sys_rmdir_post env st a = (ENOTEMPTY, st)) ∧
       (d.refCount > 1 ∨ (st.inodeSt i).openCount > 0 →
          sys_rmdir_post env st a = (EBUSY, st))) := by
  intro env st a d i hdn hino hro hdir
  constructor
  · intro hrc hopen hch
    unfold sys_rmdir_post
    simp only [hdn, hino]
    rw [if_neg (by simp [hro]), if_neg (by simp [hrc, hopen]), if_pos hch]
  · intro hbusy
    unfold sys_rmdir_post
    simp only [hdn, hino]
    rw [if_neg (by simp [hro]), if_pos hbusy]

/-- Witness for C6: rmdir of the populated directory 2 returns ENOTEMPTY
leaving the cache untouched, and with its inode opened once it returns
EBUSY. -/
theorem c6_rmdir_witness :
    sys_rmdir_post envC6 stC6 2 = (ENOTEMPTY, stC6) ∧
    sys_rmdir_post envC6 stC6b 2 = (EBUSY, stC6b) := by
  constructor
  · exact (c6_rmdir_notempty_ebusy envC6 stC6 2
      ⟨['d'], 1, cHash ['d'] + 1, some 1, [3], some 201, 1, 0⟩ 201
      (by decide) (by decide) (by decide) (by decide)).1 (by decide) (by decide) (by decide)
  · exact (c6_rmdir_notempty_ebusy envC6 stC6b 2
      ⟨['d'], 1, cHash ['d'] + 1, some 1, [3], some 201, 1, 0⟩ 201
      (by decide) (by decide) (by decide) (by decide)).2 (Or.inr (by decide))

/-- A `size_t` below 2^31 reinterprets as a nonnegative `int`. -/
theorem i32ofNat_small (n : Nat) (h : n < 2 ^ 31) : i32ofNat n = (n : Int) := by
  unfold i32ofNat U32
  have h2 : n % 2 ^ 32 = n := Nat.mod_eq_of_lt (by omega)
  simp only [h2]
  rw [if_pos (by exact_mod_cast h)]

/-- A nonnegative `int` below 2^31 converts back to the same `size_t`. -/
theorem u32ofInt_small (x : Int) (h0 : 0 ≤ x) (h : x < 2 ^ 31) : u32ofInt x = x.toNat := by
  unfold u32ofInt U32
  rw [Int.emod_eq_of_lt h0 (by omega)]

/-- C7: lseek computes the target as current + offset for CUR, size +
offset for END and offset for SET (in the in-range regime where the
32-bit casts are the identity), hands exactly that target to the driver's
seek, and updates the stored file position to the target precisely when
the driver succeeds — on failure the position is unchanged and the
driver's error is returned. -/
theorem c7_lseek_semantics :
    ∀ (env : WalkEnv) (f : VFileM) (offset : Int) (whence : Nat) (tgt : Nat),
      f.fpos < 2 ^ 31 → f.fsize < 2 ^ 31 →
      ((whence = FSEEK_CUR ∧ 0 ≤ (f.fpos : Int) + offset ∧ (f.fpos : Int) + offset < 2 ^ 31 ∧
          (tgt : Int) = (f.fpos : Int) + offset) ∨
       (whence = FSEEK_END ∧ 0 ≤ (f.fsize : Int) + offset ∧ (f.fsize : Int) + offset < 2 ^ 31 ∧
          (tgt : Int) = (f.fsize : Int) + offset) ∨
       (whence = FSEEK_SET ∧ 0 ≤ offset ∧ offset < 2 ^ 31 ∧ (tgt : Int) = offset)) →
      (sys_lseek_file env f offset whence).snd.snd = tgt ∧
      (env.seekOp tgt = 0 → sys_lseek_file env f offset whence = (0, ⟨tgt, f.fsize⟩, tgt)) ∧
      (env.seekOp tgt ≠ 0 →
        sys_lseek_file env f offset whence = (env.seekOp tgt, f, tgt)) := by
  intro env f offset whence tgt hp hs hcase
  have htgt : (if whence = FSEEK_CUR then u32ofInt (i32ofNat f.fpos + offset)
      else if whence = FSEEK_END then u32ofInt (i32ofNat f.fsize + offset)
      else if whence = FSEEK_SET then u32ofInt offset
      else f.fpos) = tgt := by
    rcases hcase with ⟨hw, hnn, hlt, he⟩ | ⟨hw, hnn, hlt, he⟩ | ⟨hw, hnn, hlt, he⟩
    · rw [if_pos hw, i32ofNat_small f.fpos hp, ← he, u32ofInt_small _ (by omega) (by omega)]
      exact Int.toNat_natCast tgt
    · rw [if_neg (by rw [hw]; decide), if_pos hw, i32ofNat_small f.fsize hs, ← he,
        u32ofInt_small _ (by omega) (by omega)]
      exact Int.toNat_natCast tgt
    · rw [if_neg (by rw [hw]; decide), if_neg (by rw [hw]; decide), if_pos hw, ← he,
        u32ofInt_small _ (by omega) (by omega)]
      exact Int.toNat_natCast tgt
  unfold sys_lseek_file
  rw [htgt]
  refine ⟨?_, ?_, ?_⟩
  · by_cases he : env.seekOp tgt = 0
    · rw [if_pos he]
    · rw [if_neg he]
  · intro he
    rw [if_pos he, he]
  · intro he
    rw [if_neg he]

/-- Witness for C7: seeking 5 bytes forward from position 10 with a
driver that accepts moves the position to 15. -/
theorem c7_lseek_witness :
    sys_lseek_file envC1 ⟨10, 100⟩ 5 FSEEK_CUR = (0, ⟨15, 100⟩, 15) :=
  (c7_lseek_semantics envC1 ⟨10, 100⟩ 5 FSEEK_CUR 15 (by decide) (by decide)
    (Or.inl ⟨rfl, by decide, by decide, by decide⟩)).2.1 rfl

/-- C8: readdir on a directory emits the synthetic "." entry at stored
offset 0 and ".." at offset 1 without calling the driver; at every stored
offset k + 2 it invokes the driver's readdir with context index k, and
the stored offset advances by exactly one when the call succeeds (code 1)
and stays unchanged when the driver reports no entry or an error. -/
theorem c8_readdir_offsets :
    ∀ (env : WalkEnv) (itype : Nat) (dent : Dirent),
      itype &&& VFS_IFDIR ≠ 0 →
      ((dent.d_offset = 0 →
          sys_readdir_post env itype dent =
            (1, { dent with d_name := ['.'], d_nlen := 1, d_type := 0, d_offset := 1 }, [])) ∧
       (dent.d_offset = 1 →
          sys_readdir_post env itype dent =
            (1, { dent with d_name := ['.', '.'], d_nlen := 2, d_type := 0, d_offset := 2 },
              [])) ∧
       (∀ k, dent.d_offset = k + 2 →
          (sys_readdir_post env itype dent).snd.snd = [k] ∧
          ((env.readdirOp k).fst = 1 →
            (sys_readdir_post env itype dent).snd.fst.d_offset = k + 3 ∧
            (sys_readdir_post env itype dent).fst = 1) ∧
          ((env.readdirOp k).fst ≠ 1 →
            (sys_readdir_post env itype dent).fst = (env.readdirOp k).fst ∧
            (sys_readdir_post env itype dent).snd.fst.d_offset = k + 2))) := by
  intro env itype dent hdir
  have hnotdir : ¬(itype &&& VFS_IFDIR = 0) := hdir
  refine ⟨?_, ?_, ?_⟩
  · intro h0
    unfold sys_readdir_post
    rw [if_neg hnotdir, if_pos h0]
    unfold __vfs_readdir_callback
    simp [h0, DIRENT_NAME_MAX_LEN]
  · intro h1
    unfold sys_readdir_post
    rw [if_neg hnotdir, if_neg (by rw [h1]; decide), if_pos h1]
    unfold __vfs_readdir_callback
    simp [h1, DIRENT_NAME_MAX_LEN]
  · intro k hk
    have hoff0 : ¬(dent.d_offset = 0) := by omega
    have hoff1 : ¬(dent.d_offset = 1) := by omega
    have hsub : dent.d_offset - 2 = k := by omega
    unfold sys_readdir_post
    rw [if_neg hnotdir, if_neg hoff0, if_neg hoff1]
    simp only [hsub]
    refine ⟨?_, ?_, ?_⟩
    · by_cases hr : (env.readdirOp k).fst = 1
      · rw [if_pos hr]
      · rw [if_neg hr]
    · intro hr
      rw [if_pos hr]
      exact ⟨by simp [hk], rfl⟩
    · intro hr
      rw [if_neg hr]
      refine ⟨rfl, ?_⟩
      cases hE : (env.readdirOp k).snd with
      | none => simp [hE, hk]
      | some pr => simp [hE, __vfs_readdir_callback, hk]

/-- Witness for C8: at offset 0 the synthetic "." entry is produced, and
at offset 5 the no-entry driver of the chain environment leaves the
offset at 5. -/
theorem c8_readdir_witness :
    sys_readdir_post envC1 VFS_IFDIR ⟨[], 0, 0, 0⟩ = (1, ⟨['.'], 1, 0, 1⟩, []) ∧
    (sys_readdir_post envC1 VFS_IFDIR ⟨[], 0, 0, 5⟩).fst = 0 ∧
    (sys_readdir_post envC1 VFS_IFDIR ⟨[], 0, 0, 5⟩).snd.fst.d_offset = 5 := by
  have h := c8_readdir_offsets envC1 VFS_IFDIR ⟨[], 0, 0, 0⟩ (by decide)
  have h5 := c8_readdir_offsets envC1 VFS_IFDIR ⟨[], 0, 0, 5⟩ (by decide)
  refine ⟨h.1 rfl, ?_, ?_⟩
  · exact ((h5.2.2 3 rfl).2.2 (by decide)).1
  · exact ((h5.2.2 3 rfl).2.2 (by decide)).2

/-- C9: `dup2(x, x)` returns x and leaves the fd table and every file
object untouched, for every integer x, open or not: the identity test
precedes the fd validation and every side effect. -/
theorem c9_dup2_self_noop :
    ∀ (env : WalkEnv) (st : FdSt) (x : Int), vfs_dup2 env st x x = (x, st) := by
  intro env st x
  unfold vfs_dup2
  rw [if_pos rfl]

/-- C10: readdir on a valid fd whose inode is not a directory returns
ENOTDIR, calls no driver, and leaves the dirent (its stored offset
included) unchanged. -/
theorem c10_readdir_notdir :
    ∀ (env : WalkEnv) (itype : Nat) (dent : Dirent),
      itype &&& VFS_IFDIR = 0 →
      sys_readdir_post env itype dent = (ENOTDIR, dent, []) := by
  intro env itype dent h
  unfold sys_readdir_post
  rw [if_pos h]

/-- Witness for C10: readdir of a regular-file inode fails with ENOTDIR
and touches nothing. -/
theorem c10_readdir_notdir_witness :
    sys_readdir_post envC1 VFS_IFFILE ⟨['q'], 1, 7, 4⟩ =
      (ENOTDIR, ⟨['q'], 1, 7, 4⟩, []) :=
  c10_readdir_notdir envC1 VFS_IFFILE ⟨['q'], 1, 7, 4⟩ (by decide)

end LunaixVFS
